import Mathlib

/-!
Verification development for the xcel_itron2mqtt endpoint registry and
poll-parse-publish pipeline (src/xcel_itron2mqtt: xcel_endpoint.py,
xcel_meter.py, mqtt.py, main.py).

The Python code is shallowly embedded: dictionaries become insertion-ordered
association lists, XML responses become association lists from element name
to element text (modelling `root.find(".//{ns}name").text`), exceptions
become `Except PyErr`, and the single-threaded cooperative scheduling of
asyncio is modelled by sequencing the branches of each `asyncio.gather`
fan-out in task-creation order.
-/

namespace XcelItron

/-- Python exceptions that occur in the modelled code paths. -/
inductive PyErr where
  | keyError (k : String)
  | attributeError (msg : String)
  | indexError
  | typeError (msg : String)
  | queryError (msg : String)
deriving Repr, DecidableEq

/-- Insertion-ordered association-list update, mirroring Python
`d[k] = v`: an existing key keeps its position and gets the new value,
a fresh key is appended. -/
def dinsert (d : List (String × α)) (k : String) (v : α) : List (String × α) :=
  if d.any (fun p => p.1 == k) then
    d.map (fun p => if p.1 == k then (k, v) else p)
  else
    d ++ [(k, v)]

/-- Python `d[k]` lookup (first binding; our dicts keep keys unique). -/
def dget (d : List (String × α)) (k : String) : Option α :=
  (d.find? (fun p => p.1 == k)).map (fun p => p.2)

/-- Key list of an association-list dictionary. -/
def dkeys (d : List (String × α)) : List String :=
  d.map (fun p => p.1)

/-- Python `s.replace(" ", "_")`: every space character becomes an
underscore. -/
def pyReplaceSpace (s : String) : String :=
  String.mk (s.data.map (fun c => if c = ' ' then '_' else c))

/-- Python `s.lower()` on the ASCII names this program handles. -/
def pyLower (s : String) : String :=
  String.mk (s.data.map Char.toLower)

/-- Whether the last character of a string is "/": Python
`s.endswith("/")` and, for non-empty strings, `s[-1] == "/"`. -/
def lastIsSlash (s : String) : Bool :=
  s.data.getLast? == some '/'

/-- Python `s[:-1]`: the string without its last character. -/
def dropLast1 (s : String) : String :=
  String.mk s.data.dropLast

/-- The `device_info["device"]` object built in XcelMeter.setup. -/
structure DeviceInfo where
  identifiers : List String
  name : String
  model : String
  sw_version : String
deriving Repr, DecidableEq

/-- The per-sensor details dict taken from the endpoints yaml schema:
the `entity_type` key (popped by create_config) plus the remaining
payload fields. -/
structure SensorDetails where
  entity_type : String
  extra : List (String × String)
deriving Repr, DecidableEq

/-- One item of a list-valued tag entry.  The Python code duck-types
here: items that are dicts map sub-names to details, anything else is
skipped by parse_response (and breaks mqtt_send_config's popitem). -/
inductive TagItem where
  | dict (entries : List (String × SensorDetails))
  | scalar (s : String)
deriving Repr, DecidableEq

/-- The value attached to one key of the tags tree: either a scalar
leaf (a details dict) or a list of variant items. -/
inductive TagVal where
  | obj (details : SensorDetails)
  | lst (items : List TagItem)
deriving Repr, DecidableEq

/-- The tags tree of one endpoint, as an insertion-ordered dict. -/
abbrev Tags := List (String × TagVal)

/-- An XML response, abstracted to what `root.find(".//{IEEE_PREFIX}name")`
can observe: the text of the first element with a given name, if present. -/
abbrev Xml := List (String × String)

/-- Model of `root.find(f".//{IEEE_PREFIX}{name}")` followed by `.text`. -/
def xmlFind (xml : Xml) (name : String) : Option String :=
  (xml.find? (fun p => p.1 == name)).map (fun p => p.2)

/-- Payload of one mqtt publish. -/
inductive Payload where
  | config (fields : List (String × String)) (state_topic : String)
      (name : String) (unique_id : String) (device : DeviceInfo)
  | state (value : String)
  | deviceConfig (name : String) (state_topic : String) (unique_id : String)
      (device : DeviceInfo)
deriving Repr, DecidableEq

/-- One call to Mqtt.publish: topic, payload and the retain flag
(Mqtt.publish defaults retain to False when the caller omits it). -/
structure Publish where
  topic : String
  payload : Payload
  retain : Bool
deriving Repr, DecidableEq

/-! ## XcelEndpoint -/

/-- The constructor arguments of XcelEndpoint that the modelled methods
read (`self.name`, `self.ldfi`, the raw meter name, the raw mqtt topic
root `self._mqtt_topic_prefix`, and `self.device_info`). -/
structure EndpointCfg where
  name : String
  ldfi : String
  meterNameRaw : String
  mqttRoot : String
  device : DeviceInfo
deriving Repr, DecidableEq

/-- XcelEndpoint.__init__: `self.meter_name = meter_name.replace(" ", "_").lower()`. -/
def meter_name (cfg : EndpointCfg) : String :=
  pyLower (pyReplaceSpace cfg.meterNameRaw)

/-- XcelEndpoint.mqtt_topic_prefix property: strips one trailing "/" from
`self._mqtt_topic_prefix` when present. -/
def endpointTopicRoot (cfg : EndpointCfg) : String :=
  let p := cfg.mqttRoot
  if lastIsSlash p then dropLast1 p else p

/-- Result of XcelEndpoint.create_config: the config topic, the config
payload, and the state topic recorded into `_sensor_state_topics`. -/
structure ConfigResult where
  topic : String
  payload : Payload
  stateTopic : String
deriving Repr, DecidableEq

/-- XcelEndpoint.create_config: builds the discovery payload and the two
mqtt topics for one sensor, from the endpoint's fields and the sensor's
details dict. -/
def create_config (cfg : EndpointCfg) (sensor_name : String)
    (details : SensorDetails) : ConfigResult :=
  let friendly := pyReplaceSpace cfg.name
  let base := endpointTopicRoot cfg ++ "/" ++ details.entity_type ++ "/" ++
    meter_name cfg ++ "/" ++ friendly ++ "/" ++ sensor_name
  let state := base ++ "/state"
  let uid := pyReplaceSpace (pyLower (cfg.device.name ++ "_" ++ cfg.ldfi ++
    "_" ++ cfg.name ++ "_" ++ sensor_name))
  { topic := base ++ "/config",
    payload := Payload.config details.extra state
      (cfg.name ++ " " ++ sensor_name ++ " (" ++ cfg.ldfi ++ ")") uid cfg.device,
    stateTopic := state }

/-- An `asyncio.gather` fan-out in which every branch either returns a
value or raises: branches are sequenced in task order and the first
failure propagates to the awaiter. -/
def gatherE (f : α → Except PyErr β) : List α → Except PyErr (List β)
  | [] => Except.ok []
  | x :: xs =>
    match f x with
    | Except.error e => Except.error e
    | Except.ok y =>
      match gatherE f xs with
      | Except.error e => Except.error e
      | Except.ok ys => Except.ok (y :: ys)

/-- One branch of mqtt_send_config's inner fan-out over a list-valued tag:
`v_item.popitem()` takes the LAST entry of a dict item, raises
AttributeError on a non-dict item and KeyError on an empty dict; the
branch then creates and publishes one retained config and records one
state-topic registration. -/
def processListItem (cfg : EndpointCfg) (k : String) :
    TagItem → Except PyErr (Publish × (String × String))
  | TagItem.scalar _ => Except.error (PyErr.attributeError "popitem")
  | TagItem.dict entries =>
    match entries.getLast? with
    | none => Except.error (PyErr.keyError "popitem(): dictionary is empty")
    | some (nm, details) =>
      let sensor := k ++ nm
      let r := create_config cfg sensor details
      Except.ok (⟨r.topic, r.payload, true⟩, (sensor, r.stateTopic))

/-- One branch of mqtt_send_config's outer fan-out: a list value fans out
over its items, an object value creates and publishes one retained config
directly.  Returns the publishes and the state-topic registrations the
branch performs, in task order. -/
def processEntry (cfg : EndpointCfg) :
    String × TagVal → Except PyErr (List Publish × List (String × String))
  | (k, TagVal.obj details) =>
    let r := create_config cfg k details
    Except.ok ([⟨r.topic, r.payload, true⟩], [(k, r.stateTopic)])
  | (k, TagVal.lst items) =>
    (gatherE (processListItem cfg k) items).map
      (fun rs => (rs.map (fun p => p.1), rs.map (fun p => p.2)))

/-- XcelEndpoint.mqtt_send_config: fans out over the tags tree, publishing
one retained discovery config per processed leaf and recording the
matching `_sensor_state_topics` registration. -/
def mqtt_send_config (cfg : EndpointCfg) (tags : Tags) :
    Except PyErr (List Publish × List (String × String)) :=
  (gatherE (processEntry cfg) tags).map
    (fun rs => ((rs.map (fun p => p.1)).flatten, (rs.map (fun p => p.2)).flatten))

/-- The `_sensor_state_topics` dict resulting from a sequence of
`self._sensor_state_topics[sensor_name] = state_topic` assignments. -/
def buildTable (regs : List (String × String)) : List (String × String) :=
  regs.foldl (fun acc p => dinsert acc p.1 p.2) []

/-- The readings contributed by one entry of the tags dict in
XcelEndpoint.parse_response: a scalar leaf looks its own key up in the
response, a list fans over dict items and looks every sub-key up;
missing elements contribute nothing. -/
def entryPairs (xml : Xml) : String × TagVal → List (String × String)
  | (k, TagVal.obj _) =>
    match xmlFind xml k with
    | some t => [(k, t)]
    | none => []
  | (k, TagVal.lst items) =>
    items.foldl (fun acc it =>
      match it with
      | TagItem.scalar _ => acc
      | TagItem.dict entries =>
        entries.foldl (fun a e =>
          match xmlFind xml e.1 with
          | some t => a ++ [(k ++ e.1, t)]
          | none => a) acc) []

/-- The readings one item of a variant list contributes: every sub-key of
a dict item found in the response, prefixed by the entry key; nothing for
an absent element or a non-dict item. -/
def itemPairs (xml : Xml) (k : String) : TagItem → List (String × String)
  | TagItem.dict entries =>
    entries.filterMap (fun e => (xmlFind xml e.1).map (fun t => (k ++ e.1, t)))
  | TagItem.scalar _ => []

/-- XcelEndpoint.parse_response: walks the tags dict in order and inserts
each found reading into `readings_dict`. -/
def parse_response (xml : Xml) (tags : Tags) : List (String × String) :=
  tags.foldl (fun acc e => (entryPairs xml e).foldl (fun a p => dinsert a p.1 p.2) acc) []

/-- The topic-routing loop of XcelEndpoint.process_send_mqtt:
`topic = self._sensor_state_topics[k]` raises KeyError for a reading key
with no registered state topic; otherwise `mqtt_topic_message[topic] = v`. -/
def buildTopicMessages (table : List (String × String)) :
    List (String × String) → List (String × String) →
    Except PyErr (List (String × String))
  | [], acc => Except.ok acc
  | (k, v) :: rest, acc =>
    match dget table k with
    | none => Except.error (PyErr.keyError k)
    | some topic => buildTopicMessages table rest (dinsert acc topic v)

/-- XcelEndpoint.process_send_mqtt: routes every reading to its state
topic, then fans out one non-retained state publish per topic.  The
routing loop runs to completion before any publish is issued. -/
def process_send_mqtt (table : List (String × String))
    (reading : List (String × String)) : Except PyErr (List Publish) :=
  (buildTopicMessages table reading []).map
    (fun msgs => msgs.map (fun p => ⟨p.1, Payload.state p.2, false⟩))

/-! ## Resilience layer (tenacity retry decorator)

Both XcelEndpoint.query_endpoint and XcelMeter.setup carry
`@retry(stop=stop_after_attempt(15), wait=wait_exponential(multiplier=1, min=1, max=15), reraise=True)`.
-/

/-- The wait tenacity's wait_exponential(multiplier=1, min=1, max=15)
produces after a failed attempt with the given 1-based number:
`max(min, min(multiplier * 2**attempt_number, max))`, in whole time units. -/
def waitExp (attempt : Nat) : Nat :=
  max 1 (min (2 ^ attempt) 15)

/-- The tenacity retry loop, parameterised by what each 1-based attempt of
the wrapped call returns.  `remaining` counts the retries still allowed by
stop_after_attempt; at 0 the attempt's outcome is final (reraise=True
re-raises a final failure).  Returns the outcome, the number of attempts
made, and the waits slept between attempts, in order. -/
def retryAux (call : Nat → Except PyErr α) (attempt : Nat) :
    Nat → Except PyErr α × Nat × List Nat
  | 0 => (call attempt, 1, [])
  | r + 1 =>
    match call attempt with
    | Except.ok a => (Except.ok a, 1, [])
    | Except.error _ =>
      let rest := retryAux call (attempt + 1) r
      (rest.1, rest.2.1 + 1, waitExp attempt :: rest.2.2)

/-- The retry policy applied by the decorator: first attempt number 1,
at most 15 attempts in total. -/
def tenacityRetry (call : Nat → Except PyErr α) : Except PyErr α × Nat × List Nat :=
  retryAux call 1 14

/-- XcelEndpoint.query_endpoint, abstracted over what the meter answers on
each attempt: the retry policy wrapped around one HTTP GET. -/
def query_endpoint (responses : Nat → Except PyErr String) :
    Except PyErr String × Nat × List Nat :=
  tenacityRetry responses

/-! ## Mqtt (mqtt.py) -/

/-- The observable state of the Mqtt wrapper: the `connected` flag, how
often the underlying `self.client.connect()` was invoked, and the
publishes issued through the underlying client. -/
structure MqttState where
  connected : Bool
  connectCalls : Nat
  published : List Publish
deriving Repr, DecidableEq

/-- The state of a freshly constructed Mqtt object. -/
def mqttInit : MqttState :=
  { connected := false, connectCalls := 0, published := [] }

/-- Mqtt.connect under the connect lock (single-threaded cooperative
scheduling serialises the critical section): a no-op when `connected`
already holds; otherwise the underlying client connect is invoked, and on
success the flag is set (the except-branch swallows a failure and leaves
the flag unset). -/
def mqttConnect (connectOk : Bool) (s : MqttState) : MqttState :=
  if s.connected then s
  else if connectOk then
    { s with connected := true, connectCalls := s.connectCalls + 1 }
  else
    { s with connectCalls := s.connectCalls + 1 }

/-- Mqtt.publish: lazily connects when the flag is unset, then publishes
through the underlying client. -/
def mqttPublish (connectOk : Bool) (s : MqttState) (p : Publish) : MqttState :=
  let s' := if s.connected then s else mqttConnect connectOk s
  { s' with published := s'.published ++ [p] }

/-- A sequence of Mqtt.publish calls arriving one after the other on the
event loop. -/
def mqttPublishAll (connectOk : Bool) (s : MqttState) (ps : List Publish) : MqttState :=
  ps.foldl (mqttPublish connectOk) s

/-! ## XcelMeter (xcel_meter.py) -/

/-- XcelMeter.__init__: `self._mqtt_prefix = mqtt_prefix or ""` — Python
`or` replaces a None (and an empty) argument by the empty string. -/
def meterInitRoot (mqttRootArg : Option String) : String :=
  match mqttRootArg with
  | none => ""
  | some s => if s = "" then "" else s

/-- The declared default of XcelMeter.__init__'s mqtt_prefix parameter. -/
def meterRootDefault : String := "homeassitant/"

/-- main.py passes `os.environ.get("MQTT_TOPIC_PREFIX", None)` to
XcelMeter, so an unset environment variable reaches __init__ as None. -/
def mainMqttRootArg (envVar : Option String) : Option String := envVar

/-- XcelMeter.mqtt_topic_prefix property: `prefix[-1]` raises IndexError
on the empty string; otherwise one trailing "/" is stripped when present. -/
def meterTopicRoot (p : String) : Except PyErr String :=
  if p = "" then Except.error PyErr.indexError
  else if lastIsSlash p then Except.ok (dropLast1 p)
  else Except.ok p

/-- XcelMeter.send_mqtt_config: builds the device-level discovery payload
and publishes it via `self.mqtt.publish(state_topic, ...)` with no retain
argument, so Mqtt.publish's default retain=False applies. -/
def send_mqtt_config (nameWithLfdi : String) (lfdi : String)
    (device : DeviceInfo) : Publish :=
  let state := "homeassistant/device/energy/" ++ pyLower (pyReplaceSpace nameWithLfdi)
  { topic := state,
    payload := Payload.deviceConfig nameWithLfdi state lfdi device,
    retain := false }

/-! ### XcelMeter.create_endpoints and the arity of XcelEndpoint.create_endpoint -/

/-- An argument value at the XcelEndpoint.create_endpoint call site. -/
inductive PyValue where
  | httpClient
  | mqttClient
  | str (s : String)
  | tagsVal (t : Tags)
  | infoVal (d : DeviceInfo)
deriving Repr, DecidableEq

/-- Python positional-argument binding for a function without defaults:
fewer arguments than parameters raises TypeError naming the function. -/
def bindArgs (fn : String) (params : List String) (args : List PyValue) :
    Except PyErr (List (String × PyValue)) :=
  if args.length < params.length then
    Except.error (PyErr.typeError (fn ++ "() missing required positional arguments"))
  else
    Except.ok (params.zip args)

/-- The positional parameters of XcelEndpoint.create_endpoint, in order. -/
def createEndpointParams : List String :=
  ["http_client", "mqtt", "url", "ldfi", "name", "tags", "device_info",
   "mqtt_prefix", "meter_name"]

/-- One schema entry handed to XcelMeter.create_endpoints: the endpoint
name mapped to its url and tags. -/
structure EndpointSpec where
  url : String
  tags : Tags
deriving Repr, DecidableEq

/-- The argument tuple XcelMeter.create_endpoints builds for one schema
entry — eight positional values (meter_name is never supplied).  Building
the tuple first evaluates `self.mqtt_topic_prefix`, which can itself
raise. -/
def createEndpointArgs (baseUrl lfdi root : String) (device : DeviceInfo)
    (entryName : String) (v : EndpointSpec) :
    Except PyErr (List PyValue) :=
  match meterTopicRoot root with
  | Except.error err => Except.error err
  | Except.ok r =>
    Except.ok [PyValue.httpClient, PyValue.mqttClient,
      PyValue.str (baseUrl ++ v.url), PyValue.str lfdi, PyValue.str entryName,
      PyValue.tagsVal v.tags, PyValue.infoVal device, PyValue.str r]

/-- One branch of create_endpoints: evaluate the argument tuple, then
call XcelEndpoint.create_endpoint with it (positional binding). -/
def createEndpointCall (baseUrl lfdi root : String) (device : DeviceInfo)
    (e : String × EndpointSpec) : Except PyErr (List (String × PyValue)) :=
  match createEndpointArgs baseUrl lfdi root device e.1 e.2 with
  | Except.error err => Except.error err
  | Except.ok args => bindArgs "create_endpoint" createEndpointParams args

/-- XcelMeter.create_endpoints: for every named entry of the loaded
schema, evaluate the argument tuple and call
XcelEndpoint.create_endpoint with it. -/
def create_endpoints (baseUrl lfdi root : String) (device : DeviceInfo)
    (entries : List (String × EndpointSpec)) :
    Except PyErr (List (List (String × PyValue))) :=
  gatherE (createEndpointCall baseUrl lfdi root device) entries

/-- The tail of XcelMeter.setup after hardware identification: create the
endpoints, then set `self.initalized = True`.  Propagates any exception,
so a create_endpoints failure means the flag is never set. -/
def setupTail (baseUrl lfdi root : String) (device : DeviceInfo)
    (entries : List (String × EndpointSpec)) : Except PyErr Bool :=
  (create_endpoints baseUrl lfdi root device entries).map (fun _ => true)

/-! ### XcelMeter.run -/

/-- The state publishes of the branches of one poll cycle's
`asyncio.gather` that ran to completion (tasks whose branch raised
contribute none). -/
def gatherPubs (rs : List (Except PyErr (List Publish))) : List Publish :=
  rs.foldl (fun acc r =>
    match r with
    | Except.ok ps => acc ++ ps
    | Except.error _ => acc) []

/-- The exception an `asyncio.gather` without return_exceptions raises to
its awaiter: the first branch failure, if any. -/
def firstErr (rs : List (Except PyErr (List Publish))) : Option PyErr :=
  rs.findSome? (fun r =>
    match r with
    | Except.error e => some e
    | Except.ok _ => none)

/-- How a run of XcelMeter.run ends. -/
inductive RunEnd where
  | raised (e : PyErr)
  | cancelledClean
deriving Repr, DecidableEq

/-- The poll loop of XcelMeter.run, observed for `fuel` cycles, driven by
the per-cycle, per-endpoint outcomes and an optional cycle index at whose
leading sleep external cancellation arrives.  Only CancelledError is
caught (running mqtt.disconnect, modelled by `RunEnd.cancelledClean`);
any other exception escaping the cycle's gather propagates out of run and
ends the loop (`RunEnd.raised`).  Returns all publishes observed and how
(or whether, within the fuel) the loop ended. -/
def meterRunAux (outcomes : Nat → List (Except PyErr (List Publish)))
    (cancelAt : Option Nat) (i : Nat) :
    Nat → List Publish × Option RunEnd
  | 0 => ([], none)
  | fuel + 1 =>
    if cancelAt = some i then ([], some RunEnd.cancelledClean)
    else
      let rs := outcomes i
      match firstErr rs with
      | some e => (gatherPubs rs, some (RunEnd.raised e))
      | none =>
        let rest := meterRunAux outcomes cancelAt (i + 1) fuel
        (gatherPubs rs ++ rest.1, rest.2)

/-- XcelMeter.run from the first poll cycle. -/
def meterRun (outcomes : Nat → List (Except PyErr (List Publish)))
    (cancelAt : Option Nat) (fuel : Nat) : List Publish × Option RunEnd :=
  meterRunAux outcomes cancelAt 0 fuel

/-! ## Leaf counting and schema validity (spec section 3 TagSpec model) -/

/-- Leaf extraction points contributed by one item of a variant list:
every named variant of a dict item. -/
def itemLeafCount : TagItem → Nat
  | TagItem.dict entries => entries.length
  | TagItem.scalar _ => 0

/-- Leaf extraction points of one tag value: one for a scalar leaf, all
named variants for a variant list. -/
def entryLeafCount : TagVal → Nat
  | TagVal.obj _ => 1
  | TagVal.lst items => (items.map itemLeafCount).sum

/-- The number of leaf extraction points of a tags tree: scalar leaves
plus all named variants inside list entries. -/
def leafCount (tags : Tags) : Nat :=
  (tags.map (fun e => entryLeafCount e.2)).sum

/-- The flattened sensor names contributed by one item of a variant list
keyed by `k`. -/
def itemNames (k : String) : TagItem → List String
  | TagItem.dict entries => entries.map (fun p => k ++ p.1)
  | TagItem.scalar _ => []

/-- The flattened sensor names of one tags entry. -/
def entryNames : String × TagVal → List String
  | (k, TagVal.obj _) => [k]
  | (k, TagVal.lst items) => (items.map (itemNames k)).flatten

/-- The flattened sensor names of a tags tree, in traversal order: the key
itself for a scalar leaf, the key prefixed variant names for list items. -/
def sensorNames (tags : Tags) : List String :=
  (tags.map entryNames).flatten

/-- Executable no-duplicates check. -/
def nodupB : List String → Bool
  | [] => true
  | x :: xs => (!xs.contains x) && nodupB xs

/-- Whether one item of a variant list is a dict naming exactly one
sub-spec, as in the spec's TagSpec model of a variant list as an ordered
sequence of named sub-specs. -/
def itemOk : TagItem → Bool
  | TagItem.dict entries => entries.length == 1
  | TagItem.scalar _ => false

/-- Validity of a tags tree per the spec's TagSpec model: every item of a
variant list is a dict naming exactly one sub-spec, and the flattened
sensor names are pairwise distinct (a collision is a configuration
error). -/
def validTags (tags : Tags) : Bool :=
  (tags.all (fun e =>
    match e.2 with
    | TagVal.obj _ => true
    | TagVal.lst items => items.all itemOk)) &&
  nodupB (sensorNames tags)

/-! ## Concrete scenario data shared by several claims -/

/-- A details dict whose entity_type is "sensor" and which carries no
further payload fields. -/
def dSensor : SensorDetails := { entity_type := "sensor", extra := [] }

/-- The scenario schema of spec section 8:
`{"lFDI": leaf, "Reading": [{"Voltage": leaf}, {"Current": leaf}]}`. -/
def scenTags : Tags :=
  [("lFDI", TagVal.obj dSensor),
   ("Reading", TagVal.lst [TagItem.dict [("Voltage", dSensor)],
                           TagItem.dict [("Current", dSensor)]])]

/-- The scenario device info. -/
def scenDevice : DeviceInfo :=
  { identifiers := ["LFDI1"], name := "Meter A (123)", model := "mf",
    sw_version := "1.0" }

/-- The scenario endpoint: prefix "homeassistant", meter name
"Meter A (123)", endpoint name "Readings". -/
def scenCfg : EndpointCfg :=
  { name := "Readings", ldfi := "LFDI1", meterNameRaw := "Meter A (123)",
    mqttRoot := "homeassistant", device := scenDevice }

/-- A scenario response carrying lFDI and Voltage but no Current element. -/
def scenXml : Xml := [("lFDI", "ABC123"), ("Voltage", "120")]

/-- The retried hardware-identification body of XcelMeter.setup,
abstracted over what each attempt yields: the same retry decorator as
query_endpoint. -/
def setupAttempts (attempts : Nat → Except PyErr Bool) :
    Except PyErr Bool × Nat × List Nat :=
  tenacityRetry attempts

/-- A query that fails on its first two attempts and succeeds afterwards. -/
def cw : Nat → Except PyErr String :=
  fun i => if i ≤ 2 then Except.error (PyErr.queryError "boom") else Except.ok "xml"

/-- Per-cycle endpoint outcomes in which the first of three endpoints
always fails its cycle and the two siblings publish one state each. -/
def c1Outs : Nat → List (Except PyErr (List Publish)) :=
  fun _ =>
    [Except.error (PyErr.queryError "boom"),
     Except.ok [⟨"t1", Payload.state "1", false⟩],
     Except.ok [⟨"t2", Payload.state "2", false⟩]]

/-- The scenario endpoint with a trailing "/" on its configured topic
root. -/
def scenCfgSlash : EndpointCfg := { scenCfg with mqttRoot := "homeassistant/" }

/-- The discovery publishes of a (possibly failed) mqtt_send_config run. -/
def pubsOf (r : Except PyErr (List Publish × List (String × String))) : List Publish :=
  match r with
  | Except.ok pr => pr.1
  | Except.error _ => []

/-- The `_sensor_state_topics` dict an endpoint holds after
mqtt_send_config ran on its tags tree. -/
def endpointStateTable (cfg : EndpointCfg) (tags : Tags) : List (String × String) :=
  match mqtt_send_config cfg tags with
  | Except.ok pr => buildTable pr.2
  | Except.error _ => []

/-- The retained discovery publish of the scenario endpoint's lFDI
sensor. -/
def c6p : Publish :=
  ⟨(create_config scenCfg "lFDI" dSensor).topic,
   (create_config scenCfg "lFDI" dSensor).payload, true⟩

end XcelItron

namespace XcelItron

/-! ## Theorems -/

theorem waitExp_mono {m n : Nat} (h : m ≤ n) : waitExp m ≤ waitExp n := by
  unfold waitExp
  exact max_le_max (le_refl 1) (min_le_min (Nat.pow_le_pow_right (by omega) h) (le_refl 15))

theorem waitExp_ge_one (n : Nat) : 1 ≤ waitExp n := le_max_left 1 _

theorem waitExp_le_fifteen (n : Nat) : waitExp n ≤ 15 :=
  max_le (by omega) (min_le_right _ 15)

theorem retryAux_ok (call : Nat → Except PyErr α) :
    ∀ (j r a : Nat), j ≤ r →
    (∀ i, i < j → ∃ e, call (a + i) = Except.error e) →
    (∃ v, call (a + j) = Except.ok v) →
    retryAux call a r =
      (call (a + j), j + 1, (List.range j).map (fun i => waitExp (a + i))) := by
  intro j
  induction j with
  | zero =>
    intro r a _ _ hok
    obtain ⟨v, hv⟩ := hok
    rw [Nat.add_zero] at hv
    cases r with
    | zero => simp [retryAux]
    | succ r' => simp [retryAux, hv]
  | succ j ih =>
    intro r a hle hfail hok
    cases r with
    | zero => omega
    | succ r' =>
      obtain ⟨e, he⟩ := hfail 0 (by omega)
      rw [Nat.add_zero] at he
      have ihx := ih r' (a + 1) (by omega)
        (fun i hi => by
          have := hfail (i + 1) (by omega)
          rwa [show a + (i + 1) = a + 1 + i by omega] at this)
        (by rwa [show a + 1 + j = a + (j + 1) by omega])
      simp only [retryAux, he]
      rw [ihx]
      refine Prod.ext ?_ (Prod.ext ?_ ?_)
      · simp [show a + 1 + j = a + (j + 1) by omega]
      · rfl
      · simp only [List.range_succ_eq_map, List.map_cons, List.map_map, Nat.add_zero]
        refine congrArg (fun l => waitExp a :: l) ?_
        refine List.map_congr_left ?_
        intro i _
        exact congrArg waitExp (by omega)

theorem retryAux_fail (call : Nat → Except PyErr α) :
    ∀ (r a : Nat), (∀ i, i ≤ r → ∃ e, call (a + i) = Except.error e) →
    retryAux call a r =
      (call (a + r), r + 1, (List.range r).map (fun i => waitExp (a + i))) := by
  intro r
  induction r with
  | zero => intro a _; simp [retryAux]
  | succ r' ih =>
    intro a hfail
    obtain ⟨e, he⟩ := hfail 0 (by omega)
    rw [Nat.add_zero] at he
    have ihx := ih (a + 1) (fun i hi => by
      have := hfail (i + 1) (by omega)
      rwa [show a + (i + 1) = a + 1 + i by omega] at this)
    simp only [retryAux, he]
    rw [ihx]
    refine Prod.ext ?_ (Prod.ext ?_ ?_)
    · simp [show a + 1 + r' = a + (r' + 1) by omega]
    · rfl
    · simp only [List.range_succ_eq_map, List.map_cons, List.map_map, Nat.add_zero]
      refine congrArg (fun l => waitExp a :: l) ?_
      refine List.map_congr_left ?_
      intro i _
      exact congrArg waitExp (by omega)

theorem waits_sorted (a k : Nat) :
    List.Sorted (· ≤ ·) ((List.range k).map (fun i => waitExp (a + i))) := by
  refine List.Pairwise.map _ ?_ (List.pairwise_lt_range k)
  intro m n hmn
  exact waitExp_mono (by omega)

/-- C2: the retry policy wrapped around XcelEndpoint.query_endpoint and
XcelMeter.setup (tenacity, stop_after_attempt(15),
wait_exponential(multiplier=1, min=1, max=15), reraise=True): a call
failing exactly k ≤ 14 times then succeeding is attempted exactly k+1
times, with non-decreasing waits between attempts, every wait between 1
and 15 time units; a call that always fails is re-raised after exactly
15 attempts. -/
theorem C2_retry_policy (call : Nat → Except PyErr String) :
    (∀ k, k ≤ 14 →
      (∀ i, i < k → ∃ e, call (1 + i) = Except.error e) →
      (∃ v, call (1 + k) = Except.ok v) →
      tenacityRetry call =
        (call (1 + k), k + 1, (List.range k).map (fun i => waitExp (1 + i))) ∧
      List.Sorted (· ≤ ·) (tenacityRetry call).2.2 ∧
      (∀ w ∈ (tenacityRetry call).2.2, 1 ≤ w ∧ w ≤ 15)) ∧
    ((∀ i, i ≤ 14 → ∃ e, call (1 + i) = Except.error e) →
      tenacityRetry call =
        (call 15, 15, (List.range 14).map (fun i => waitExp (1 + i)))) := by
  constructor
  · intro k hk hfail hok
    have h := retryAux_ok call k 14 1 hk hfail hok
    refine ⟨h, ?_, ?_⟩
    · rw [show tenacityRetry call = retryAux call 1 14 from rfl, h]
      exact waits_sorted 1 k
    · rw [show tenacityRetry call = retryAux call 1 14 from rfl, h]
      intro w hw
      simp only [List.mem_map, List.mem_range] at hw
      obtain ⟨i, _, rfl⟩ := hw
      exact ⟨waitExp_ge_one _, waitExp_le_fifteen _⟩
  · intro hfail
    have h := retryAux_fail call 14 1 hfail
    rw [show tenacityRetry call = retryAux call 1 14 from rfl, h]

theorem C2_retry_policy_witness :
    tenacityRetry cw = (Except.ok "xml", 3, [2, 4]) := by
  have h := (C2_retry_policy cw).1 2 (by omega)
    (fun i hi => ⟨PyErr.queryError "boom", by
      simp only [cw]
      rw [if_pos (by omega)]⟩)
    ⟨"xml", rfl⟩
  exact h.1.trans rfl

/-- C1 counterexample: with three endpoints whose first always fails while
the two siblings succeed, and no external cancellation, XcelMeter.run
ends after the very first poll cycle by re-raising the failure out of
asyncio.gather — the loop does not continue to a second cycle and the
termination is not a cancellation. -/
theorem C1_cex :
    meterRun c1Outs none 2 =
      ([⟨"t1", Payload.state "1", false⟩, ⟨"t2", Payload.state "2", false⟩],
        some (RunEnd.raised (PyErr.queryError "boom"))) := by
  decide

/-- C1 (amended): when one endpoint's run() raises during a poll cycle,
the sibling endpoints' state publishes of that cycle still occur, but the
exception is neither caught nor logged by XcelMeter.run: asyncio.gather
re-raises it, the poll loop terminates with it instead of continuing, and
only external cancellation is caught (triggering the clean mqtt
disconnect). -/
theorem C1_run_loop (rs : List (Except PyErr (List Publish)))
    (outs : Nat → List (Except PyErr (List Publish))) (e : PyErr) (fuel : Nat)
    (h0 : outs 0 = rs) (he : firstErr rs = some e) (hf : 1 ≤ fuel) :
    meterRun outs none fuel = (gatherPubs rs, some (RunEnd.raised e)) ∧
    meterRun outs (some 0) fuel = ([], some RunEnd.cancelledClean) := by
  cases fuel with
  | zero => omega
  | succ f =>
    constructor
    · simp [meterRun, meterRunAux, h0, he]
    · simp [meterRun, meterRunAux]

theorem C1_run_loop_witness :
    meterRun c1Outs none 1 =
      (gatherPubs (c1Outs 0), some (RunEnd.raised (PyErr.queryError "boom"))) ∧
    meterRun c1Outs (some 0) 1 = ([], some RunEnd.cancelledClean) :=
  C1_run_loop (c1Outs 0) c1Outs (PyErr.queryError "boom") 1 rfl (by decide) (by omega)

theorem buildTopicMessages_err (table : List (String × String)) :
    ∀ (reading acc : List (String × String)),
    (∃ p ∈ reading, dget table p.1 = none) →
    ∃ k, dget table k = none ∧
      buildTopicMessages table reading acc = Except.error (PyErr.keyError k) := by
  intro reading
  induction reading with
  | nil =>
    intro acc h
    obtain ⟨p, hp, _⟩ := h
    exact absurd hp (List.not_mem_nil p)
  | cons kv rest ih =>
    intro acc h
    cases hget : dget table kv.1 with
    | none =>
      refine ⟨kv.1, hget, ?_⟩
      obtain ⟨k, v⟩ := kv
      simp only [buildTopicMessages]
      rw [hget]
    | some t =>
      have hrest : ∃ p ∈ rest, dget table p.1 = none := by
        obtain ⟨p, hp, hdp⟩ := h
        rcases List.mem_cons.mp hp with hpe | hpr
        · rw [hpe] at hdp
          rw [hdp] at hget
          exact absurd hget (by simp)
        · exact ⟨p, hpr, hdp⟩
      obtain ⟨k, hk, heq⟩ := ih (dinsert acc t kv.2) hrest
      refine ⟨k, hk, ?_⟩
      obtain ⟨k1, v1⟩ := kv
      simp only [buildTopicMessages]
      rw [show dget table k1 = some t from hget]
      exact heq

/-- C3 counterexample: a reading whose second key has no entry in the
sensor-state-topic table makes process_send_mqtt raise KeyError — the
reading is not dropped silently and nothing at all is published that
cycle. -/
theorem C3_cex :
    process_send_mqtt [("a", "t1")] [("a", "1"), ("b", "2")] =
      Except.error (PyErr.keyError "b") := rfl

/-- C3 (amended): if some key of the reading dict has no entry in the
endpoint's sensor-state-topic table, process_send_mqtt raises KeyError
for such a key while building the topic map, before any publish is
issued, so none of the readings of that cycle is published. -/
theorem C3_missing_key (table reading : List (String × String))
    (h : ∃ p ∈ reading, dget table p.1 = none) :
    ∃ k, dget table k = none ∧
      process_send_mqtt table reading = Except.error (PyErr.keyError k) := by
  obtain ⟨k, hk, heq⟩ := buildTopicMessages_err table reading [] h
  refine ⟨k, hk, ?_⟩
  simp only [process_send_mqtt, heq, Except.map]

theorem C3_missing_key_witness :
    ∃ k, dget [("a", "t1")] k = none ∧
      process_send_mqtt [("a", "t1")] [("a", "1"), ("c", "2")] =
        Except.error (PyErr.keyError k) :=
  C3_missing_key [("a", "t1")] [("a", "1"), ("c", "2")]
    ⟨("c", "2"), by decide, by decide⟩

theorem dropLast1_append_slash (p : String) (h : lastIsSlash p = true) :
    dropLast1 p ++ "/" = p := by
  have hl : p.data.getLast? = some '/' := by
    simpa [lastIsSlash] using h
  have hne : p.data ≠ [] := by
    intro hnil
    rw [hnil] at hl
    simp at hl
  have hlast : p.data.getLast hne = '/' := by
    have hx := List.getLast?_eq_getLast p.data hne
    rw [hl] at hx
    exact (Option.some.inj hx).symm
  have hdata : p.data.dropLast ++ ['/'] = p.data := by
    conv_rhs => rw [← List.dropLast_append_getLast hne]
    rw [hlast]
  calc dropLast1 p ++ "/" = String.mk (p.data.dropLast ++ ['/']) := rfl
    _ = String.mk p.data := by rw [hdata]
    _ = p := rfl

/-- C4 counterexample: for the spec's own scenario (prefix
"homeassistant", meter name "Meter A (123)", endpoint name "Readings",
sensor lFDI) the state topic create_config actually produces is
"homeassistant/sensor/meter_a_(123)/Readings/lFDI/state" — it keeps the
parentheses in the meter segment and contains an extra endpoint-name
segment — not the claimed "homeassistant/sensor/meter_a_123/lFDI/state". -/
theorem C4_cex :
    (create_config scenCfg "lFDI" dSensor).stateTopic =
      "homeassistant/sensor/meter_a_(123)/Readings/lFDI/state" ∧
    (create_config scenCfg "lFDI" dSensor).stateTopic ≠
      "homeassistant/sensor/meter_a_123/lFDI/state" := by
  exact ⟨rfl, by decide⟩

/-- C4 (amended): the state topic produced by create_config is
{prefix}/{entity_type}/{meter_name}/{endpoint_name}/{sensor_name}/state,
where the prefix has any trailing "/" stripped, meter_name is the meter
name lower-cased with spaces replaced by underscores (all other
characters, parentheses included, kept), and endpoint_name is the
endpoint's name with spaces replaced by underscores; the config topic is
the same path ending in /config; the scenario schema yields the three
state topics under meter_a_(123)/Readings. -/
theorem C4_topics (cfg : EndpointCfg) (sensor : String) (details : SensorDetails) :
    (∃ base,
      (create_config cfg sensor details).stateTopic = base ++ "/state" ∧
      (create_config cfg sensor details).topic = base ++ "/config" ∧
      base = endpointTopicRoot cfg ++ "/" ++ details.entity_type ++ "/" ++
        pyLower (pyReplaceSpace cfg.meterNameRaw) ++ "/" ++
        pyReplaceSpace cfg.name ++ "/" ++ sensor) ∧
    (∀ q, lastIsSlash q = true →
      endpointTopicRoot { cfg with mqttRoot := q } ++ "/" = q) ∧
    (mqtt_send_config scenCfg scenTags).map (fun pr => pr.2.map (fun p => p.2)) =
      Except.ok
        ["homeassistant/sensor/meter_a_(123)/Readings/lFDI/state",
         "homeassistant/sensor/meter_a_(123)/Readings/ReadingVoltage/state",
         "homeassistant/sensor/meter_a_(123)/Readings/ReadingCurrent/state"] := by
  refine ⟨⟨endpointTopicRoot cfg ++ "/" ++ details.entity_type ++ "/" ++
      pyLower (pyReplaceSpace cfg.meterNameRaw) ++ "/" ++
      pyReplaceSpace cfg.name ++ "/" ++ sensor, rfl, rfl, rfl⟩, ?_, rfl⟩
  intro q hq
  simp only [endpointTopicRoot]
  rw [if_pos hq]
  exact dropLast1_append_slash q hq

theorem C4_topics_witness :
    (∃ base,
      (create_config scenCfg "lFDI" dSensor).stateTopic = base ++ "/state" ∧
      (create_config scenCfg "lFDI" dSensor).topic = base ++ "/config" ∧
      base = endpointTopicRoot scenCfg ++ "/" ++ dSensor.entity_type ++ "/" ++
        pyLower (pyReplaceSpace scenCfg.meterNameRaw) ++ "/" ++
        pyReplaceSpace scenCfg.name ++ "/" ++ "lFDI") ∧
    endpointTopicRoot { scenCfg with mqttRoot := "homeassistant/" } ++ "/" =
      "homeassistant/" :=
  ⟨(C4_topics scenCfg "lFDI" dSensor).1,
   (C4_topics scenCfg "lFDI" dSensor).2.1 "homeassistant/" (by decide)⟩

theorem nodupB_iff (l : List String) : nodupB l = true ↔ l.Nodup := by
  induction l with
  | nil => simp [nodupB]
  | cons x xs ih =>
    rw [List.nodup_cons, ← ih]
    simp only [nodupB, Bool.and_eq_true, Bool.not_eq_true', List.contains_eq_any_beq,
      List.any_eq_true, beq_iff_eq]
    constructor
    · rintro ⟨hc, hn⟩
      refine ⟨?_, hn⟩
      intro hmem
      rw [Bool.eq_false_iff] at hc
      exact hc (List.any_eq_true.mpr ⟨x, hmem, by simp⟩)
    · rintro ⟨hmem, hn⟩
      refine ⟨?_, hn⟩
      rw [Bool.eq_false_iff]
      intro hany
      obtain ⟨y, hy, hbeq⟩ := List.any_eq_true.mp hany
      rw [beq_iff_eq] at hbeq
      subst hbeq
      exact hmem hy

theorem dinsert_of_not_mem {α : Type} (d : List (String × α)) (k : String) (v : α)
    (h : k ∉ dkeys d) : dinsert d k v = d ++ [(k, v)] := by
  unfold dinsert
  rw [if_neg]
  intro hc
  rw [List.any_eq_true] at hc
  obtain ⟨p, hp, hbeq⟩ := hc
  rw [beq_iff_eq] at hbeq
  exact h (List.mem_map.mpr ⟨p, hp, hbeq⟩)

theorem foldl_dinsert_eq {α : Type} :
    ∀ (regs acc : List (String × α)),
    (dkeys acc ++ dkeys regs).Nodup →
    regs.foldl (fun a p => dinsert a p.1 p.2) acc = acc ++ regs := by
  intro regs
  induction regs with
  | nil => intro acc _; simp
  | cons kv rest ih =>
    intro acc h
    obtain ⟨k, v⟩ := kv
    have hkeys : dkeys acc ++ dkeys ((k, v) :: rest) =
        dkeys acc ++ k :: dkeys rest := by
      simp [dkeys]
    rw [hkeys] at h
    have hk : k ∉ dkeys acc := by
      rw [List.nodup_append] at h
      exact fun hmem => h.2.2 hmem (List.mem_cons_self k (dkeys rest))
    have hstep : List.foldl (fun a p => dinsert a p.1 p.2) acc ((k, v) :: rest) =
        List.foldl (fun a p => dinsert a p.1 p.2) (acc ++ [(k, v)]) rest := by
      rw [List.foldl_cons, dinsert_of_not_mem acc k v hk]
    rw [hstep, ih (acc ++ [(k, v)]) ?_, List.append_assoc]
    · rfl
    · have : dkeys (acc ++ [(k, v)]) ++ dkeys rest =
          dkeys acc ++ k :: dkeys rest := by
        simp [dkeys]
      rw [this]
      exact h

theorem buildTable_eq {regs : List (String × String)}
    (h : (dkeys regs).Nodup) : buildTable regs = regs := by
  have := foldl_dinsert_eq regs [] (by simpa [dkeys] using h)
  simpa [buildTable] using this

theorem leafCount_cons (e : String × TagVal) (rest : Tags) :
    leafCount (e :: rest) = entryLeafCount e.2 + leafCount rest := by
  simp [leafCount]

theorem sensorNames_cons (e : String × TagVal) (rest : Tags) :
    sensorNames (e :: rest) = entryNames e ++ sensorNames rest := by
  simp [sensorNames]

theorem processListItem_valid (cfg : EndpointCfg) (k : String) :
    ∀ (items : List TagItem), items.all itemOk = true →
    ∃ rs, gatherE (processListItem cfg k) items = Except.ok rs ∧
      rs.length = (items.map itemLeafCount).sum ∧
      rs.map (fun p => p.2.1) = (items.map (itemNames k)).flatten := by
  intro items
  induction items with
  | nil => intro _; exact ⟨[], rfl, rfl, rfl⟩
  | cons it rest ih =>
    intro h
    rw [List.all_cons, Bool.and_eq_true] at h
    obtain ⟨hit, hrest⟩ := h
    obtain ⟨rs, hrs, hlen, hnames⟩ := ih hrest
    cases it with
    | scalar s => simp [itemOk] at hit
    | dict entries =>
      have hlen1 : entries.length = 1 := by simpa [itemOk] using hit
      obtain ⟨nm, d, rfl⟩ : ∃ nm d, entries = [(nm, d)] := by
        cases entries with
        | nil => simp at hlen1
        | cons e t =>
          cases t with
          | nil => exact ⟨e.1, e.2, rfl⟩
          | cons _ _ => simp at hlen1
      have hpe : processListItem cfg k (TagItem.dict [(nm, d)]) =
          Except.ok
            (⟨(create_config cfg (k ++ nm) d).topic,
              (create_config cfg (k ++ nm) d).payload, true⟩,
             (k ++ nm, (create_config cfg (k ++ nm) d).stateTopic)) := rfl
      refine ⟨(⟨(create_config cfg (k ++ nm) d).topic,
          (create_config cfg (k ++ nm) d).payload, true⟩,
          (k ++ nm, (create_config cfg (k ++ nm) d).stateTopic)) :: rs, ?_, ?_, ?_⟩
      · simp only [gatherE, hpe, hrs]
      · simp [hlen, itemLeafCount]
        omega
      · simp [hnames, itemNames]

theorem gatherEntries_valid (cfg : EndpointCfg) :
    ∀ (tags : Tags),
    tags.all (fun e => match e.2 with
      | TagVal.obj _ => true
      | TagVal.lst items => items.all itemOk) = true →
    ∃ rs, gatherE (processEntry cfg) tags = Except.ok rs ∧
      ((rs.map (fun p => p.1)).flatten).length = leafCount tags ∧
      ((rs.map (fun p => p.2)).flatten).map (fun p => p.1) = sensorNames tags ∧
      ((rs.map (fun p => p.2)).flatten).length = leafCount tags := by
  intro tags
  induction tags with
  | nil => intro _; exact ⟨[], rfl, rfl, rfl, rfl⟩
  | cons e rest ih =>
    intro h
    rw [List.all_cons, Bool.and_eq_true] at h
    obtain ⟨he, hrest⟩ := h
    obtain ⟨rs, hrs, hplen, hrnames, hrlen⟩ := ih hrest
    obtain ⟨k, v⟩ := e
    cases v with
    | obj d =>
      have hpe : processEntry cfg (k, TagVal.obj d) =
          Except.ok
            ([⟨(create_config cfg k d).topic, (create_config cfg k d).payload, true⟩],
             [(k, (create_config cfg k d).stateTopic)]) := rfl
      refine ⟨([⟨(create_config cfg k d).topic, (create_config cfg k d).payload, true⟩],
          [(k, (create_config cfg k d).stateTopic)]) :: rs, ?_, ?_, ?_, ?_⟩
      · simp only [gatherE, hpe, hrs]
      · simp [leafCount_cons, entryLeafCount, hplen]
        omega
      · simp [sensorNames_cons, entryNames, hrnames]
      · simp [leafCount_cons, entryLeafCount, hrlen]
        omega
    | lst items =>
      have hitems : items.all itemOk = true := by simpa using he
      obtain ⟨rsl, hrsl, hlenl, hnamesl⟩ := processListItem_valid cfg k items hitems
      have hpe : processEntry cfg (k, TagVal.lst items) =
          Except.ok (rsl.map (fun p => p.1), rsl.map (fun p => p.2)) := by
        simp only [processEntry, hrsl, Except.map]
      refine ⟨(rsl.map (fun p => p.1), rsl.map (fun p => p.2)) :: rs, ?_, ?_, ?_, ?_⟩
      · simp only [gatherE, hpe, hrs]
      · simp [leafCount_cons, entryLeafCount, hplen, hlenl]
      · simp only [List.map_cons, List.flatten_cons, List.map_append, hrnames,
          sensorNames_cons, entryNames, List.map_map]
        rw [show ((fun p => p.1) ∘ (fun (p : Publish × String × String) => p.2)) =
            (fun p => p.2.1) from rfl, hnamesl]
      · simp [leafCount_cons, entryLeafCount, hrlen, hlenl]

/-- C5: for every valid tags tree (each variant-list item a dict naming
exactly one sub-spec, flattened sensor names pairwise distinct),
mqtt_send_config succeeds and generates exactly one discovery config and
registers exactly one sensor-state-topic table entry per leaf extraction
point — scalar leaves plus all named variants inside list entries. -/
theorem C5_leaf_configs (cfg : EndpointCfg) (tags : Tags)
    (h : validTags tags = true) :
    ∃ pubs regs, mqtt_send_config cfg tags = Except.ok (pubs, regs) ∧
      pubs.length = leafCount tags ∧
      regs.length = leafCount tags ∧
      regs.map (fun p => p.1) = sensorNames tags ∧
      buildTable regs = regs := by
  rw [validTags, Bool.and_eq_true] at h
  obtain ⟨hshape, hnodup⟩ := h
  obtain ⟨rs, hrs, hplen, hrnames, hrlen⟩ := gatherEntries_valid cfg tags hshape
  refine ⟨(rs.map (fun p => p.1)).flatten, (rs.map (fun p => p.2)).flatten,
    ?_, hplen, hrlen, hrnames, ?_⟩
  · simp only [mqtt_send_config, hrs, Except.map]
  · refine buildTable_eq ?_
    rw [show dkeys ((rs.map (fun p => p.2)).flatten) =
        ((rs.map (fun p => p.2)).flatten).map (fun p => p.1) from rfl, hrnames]
    exact (nodupB_iff (sensorNames tags)).mp hnodup

theorem C5_leaf_configs_witness :
    validTags scenTags = true ∧
    (∃ pubs regs, mqtt_send_config scenCfg scenTags = Except.ok (pubs, regs) ∧
      pubs.length = leafCount scenTags ∧
      regs.length = leafCount scenTags ∧
      regs.map (fun p => p.1) = sensorNames scenTags ∧
      buildTable regs = regs) :=
  ⟨by decide, C5_leaf_configs scenCfg scenTags (by decide)⟩

theorem gatherE_mem {α β : Type} (f : α → Except PyErr β) :
    ∀ (l : List α) (ys : List β), gatherE f l = Except.ok ys →
    ∀ y ∈ ys, ∃ x ∈ l, f x = Except.ok y := by
  intro l
  induction l with
  | nil =>
    intro ys h y hy
    simp only [gatherE] at h
    injection h with h
    subst h
    exact absurd hy (List.not_mem_nil y)
  | cons x xs ih =>
    intro ys h y hy
    simp only [gatherE] at h
    cases hfx : f x with
    | error e => rw [hfx] at h; cases h
    | ok y0 =>
      rw [hfx] at h
      cases hrec : gatherE f xs with
      | error e => rw [hrec] at h; cases h
      | ok ys0 =>
        rw [hrec] at h
        injection h with h
        subst h
        rcases List.mem_cons.mp hy with rfl | hmem
        · exact ⟨x, List.mem_cons_self x xs, hfx⟩
        · obtain ⟨x2, hx2, hfx2⟩ := ih ys0 hrec y hmem
          exact ⟨x2, List.mem_cons_of_mem x hx2, hfx2⟩

theorem processListItem_retain (cfg : EndpointCfg) (k : String) (it : TagItem)
    (r : Publish × String × String)
    (h : processListItem cfg k it = Except.ok r) : r.1.retain = true := by
  cases it with
  | scalar s => cases h
  | dict entries =>
    simp only [processListItem] at h
    cases hlast : entries.getLast? with
    | none => rw [hlast] at h; cases h
    | some nd =>
      obtain ⟨nm, d⟩ := nd
      rw [hlast] at h
      injection h with h
      subst h
      rfl

theorem processEntry_retain (cfg : EndpointCfg) (e : String × TagVal)
    (pr : List Publish × List (String × String))
    (h : processEntry cfg e = Except.ok pr)
    (p : Publish) (hp : p ∈ pr.1) : p.retain = true := by
  obtain ⟨k, v⟩ := e
  cases v with
  | obj d =>
    simp only [processEntry] at h
    injection h with h
    subst h
    simp only [List.mem_singleton] at hp
    subst hp
    rfl
  | lst items =>
    simp only [processEntry] at h
    cases hg : gatherE (processListItem cfg k) items with
    | error e2 =>
      rw [hg] at h
      simp only [Except.map] at h
      cases h
    | ok rsl =>
      rw [hg] at h
      simp only [Except.map] at h
      injection h with h
      subst h
      simp only [List.mem_map] at hp
      obtain ⟨r, hr, rfl⟩ := hp
      obtain ⟨x, _, hfx⟩ := gatherE_mem (processListItem cfg k) items rsl hg r hr
      exact processListItem_retain cfg k x r hfx

/-- C6 counterexample: the device-level discovery config published by
XcelMeter.send_mqtt_config passes no retain argument to Mqtt.publish, so
it goes out with retain=false, not retain=true as claimed. -/
theorem C6_cex :
    (send_mqtt_config "Meter A (LFDI1)" "LFDI1" scenDevice).retain = false := rfl

/-- C6 (amended): every per-sensor discovery config published by
XcelEndpoint.mqtt_send_config carries retain=true, but the device-level
config published by XcelMeter.send_mqtt_config is sent with the default
retain=false. -/
theorem C6_retain :
    (∀ (cfg : EndpointCfg) (tags : Tags) (p : Publish),
      p ∈ pubsOf (mqtt_send_config cfg tags) → p.retain = true) ∧
    (∀ (nm lf : String) (dev : DeviceInfo),
      (send_mqtt_config nm lf dev).retain = false) := by
  constructor
  · intro cfg tags p hp
    unfold pubsOf at hp
    cases hm : mqtt_send_config cfg tags with
    | error e => rw [hm] at hp; exact absurd hp (List.not_mem_nil p)
    | ok pr =>
      rw [hm] at hp
      simp only [mqtt_send_config] at hm
      cases hg : gatherE (processEntry cfg) tags with
      | error e => rw [hg] at hm; simp only [Except.map] at hm; cases hm
      | ok rs =>
        rw [hg] at hm
        simp only [Except.map] at hm
        injection hm with hm
        subst hm
        obtain ⟨l, hl, hpl⟩ := List.mem_flatten.mp hp
        obtain ⟨pr2, hpr2, rfl⟩ := List.mem_map.mp hl
        obtain ⟨x, _, hfx⟩ := gatherE_mem (processEntry cfg) tags rs hg pr2 hpr2
        exact processEntry_retain cfg x pr2 hfx p hpl
  · intro nm lf dev
    rfl

theorem C6_retain_witness :
    c6p ∈ pubsOf (mqtt_send_config scenCfg scenTags) ∧ c6p.retain = true ∧
    (send_mqtt_config "Meter A (123)" "LFDI1" scenDevice).retain = false :=
  ⟨by decide, C6_retain.1 scenCfg scenTags c6p (by decide),
   C6_retain.2 "Meter A (123)" "LFDI1" scenDevice⟩

theorem inner_foldl_pairs (xml : Xml) (k : String) :
    ∀ (entries : List (String × SensorDetails)) (acc : List (String × String)),
    entries.foldl (fun a e =>
      match xmlFind xml e.1 with
      | some t => a ++ [(k ++ e.1, t)]
      | none => a) acc =
    acc ++ entries.filterMap (fun e => (xmlFind xml e.1).map (fun t => (k ++ e.1, t))) := by
  intro entries
  induction entries with
  | nil => intro acc; simp
  | cons e rest ih =>
    intro acc
    cases hf : xmlFind xml e.1 with
    | some t =>
      simp only [List.foldl_cons, hf, List.filterMap_cons, Option.map_some]
      rw [ih (acc ++ [(k ++ e.1, t)]), List.append_assoc]
      rfl
    | none =>
      simp only [List.foldl_cons, hf, List.filterMap_cons, Option.map_none]
      exact ih acc

theorem entryPairs_lst (xml : Xml) (k : String) (items : List TagItem) :
    entryPairs xml (k, TagVal.lst items) = (items.map (itemPairs xml k)).flatten := by
  have main : ∀ (its : List TagItem) (acc : List (String × String)),
      its.foldl (fun acc2 it =>
        match it with
        | TagItem.scalar _ => acc2
        | TagItem.dict entries =>
          entries.foldl (fun a e =>
            match xmlFind xml e.1 with
            | some t => a ++ [(k ++ e.1, t)]
            | none => a) acc2) acc =
      acc ++ (its.map (itemPairs xml k)).flatten := by
    intro its
    induction its with
    | nil => intro acc; simp
    | cons it rest ih =>
      intro acc
      cases it with
      | scalar s =>
        simp only [List.foldl_cons]
        rw [ih acc]
        simp [itemPairs]
      | dict entries =>
        simp only [List.foldl_cons]
        rw [inner_foldl_pairs xml k entries acc, ih _, List.append_assoc]
        simp [itemPairs]
  simpa [entryPairs] using main items []

/-- C7: parse_response omits, without raising, the key of every element
name absent from the response — a scalar leaf contributes nothing when
its element is missing, and every reading contributed by a variant list
stems from a found element; in the spec's scenario (response without the
Current element) exactly lFDI and ReadingVoltage are parsed, and exactly
their two state topics are published that cycle. -/
theorem C7_missing_element :
    (∀ (xml : Xml) (k : String) (d : SensorDetails), xmlFind xml k = none →
      entryPairs xml (k, TagVal.obj d) = []) ∧
    (∀ (xml : Xml) (k : String) (items : List TagItem) (p : String × String),
      p ∈ entryPairs xml (k, TagVal.lst items) →
      ∃ nm, p.1 = k ++ nm ∧ xmlFind xml nm = some p.2) ∧
    xmlFind scenXml "Current" = none ∧
    parse_response scenXml scenTags = [("lFDI", "ABC123"), ("ReadingVoltage", "120")] ∧
    process_send_mqtt (endpointStateTable scenCfg scenTags)
        (parse_response scenXml scenTags) =
      Except.ok
        [⟨"homeassistant/sensor/meter_a_(123)/Readings/lFDI/state",
          Payload.state "ABC123", false⟩,
         ⟨"homeassistant/sensor/meter_a_(123)/Readings/ReadingVoltage/state",
          Payload.state "120", false⟩] := by
  refine ⟨?_, ?_, rfl, rfl, rfl⟩
  · intro xml k d h
    simp [entryPairs, h]
  · intro xml k items p hp
    rw [entryPairs_lst] at hp
    obtain ⟨l, hl, hpl⟩ := List.mem_flatten.mp hp
    obtain ⟨it, _, rfl⟩ := List.mem_map.mp hl
    cases it with
    | scalar s => exact absurd hpl (List.not_mem_nil p)
    | dict entries =>
      simp only [itemPairs] at hpl
      obtain ⟨e, _, heq⟩ := List.mem_filterMap.mp hpl
      cases hf : xmlFind xml e.1 with
      | none => rw [hf] at heq; cases heq
      | some t =>
        rw [hf] at heq
        simp only [Option.map_some'] at heq
        injection heq with heq
        subst heq
        exact ⟨e.1, rfl, hf⟩

theorem C7_missing_element_witness :
    entryPairs scenXml ("Current", TagVal.obj dSensor) = [] ∧
    (∃ nm, (("ReadingVoltage", "120") : String × String).1 = "Reading" ++ nm ∧
      xmlFind scenXml nm = some (("ReadingVoltage", "120") : String × String).2) :=
  ⟨C7_missing_element.1 scenXml "Current" dSensor rfl,
   C7_missing_element.2.1 scenXml "Reading"
     [TagItem.dict [("Voltage", dSensor)], TagItem.dict [("Current", dSensor)]]
     ("ReadingVoltage", "120") (by decide)⟩

theorem mqttPublishAll_connected (b : Bool) :
    ∀ (ps : List Publish) (s : MqttState), s.connected = true →
    (mqttPublishAll b s ps).connected = true ∧
    (mqttPublishAll b s ps).connectCalls = s.connectCalls := by
  intro ps
  induction ps with
  | nil => intro s h; exact ⟨h, rfl⟩
  | cons p rest ih =>
    intro s h
    have hstep : mqttPublish b s p = { s with published := s.published ++ [p] } := by
      simp [mqttPublish, h]
    simp only [mqttPublishAll, List.foldl_cons] at *
    rw [hstep]
    exact ih { s with published := s.published ++ [p] } h

/-- C8: Mqtt.connect is a no-op whenever the connected flag already
holds, and a sequence of publish calls starting from a fresh,
unconnected Mqtt object whose underlying connect succeeds performs
exactly one underlying client connect. -/
theorem C8_connect_idempotent :
    (∀ (b : Bool) (s : MqttState), s.connected = true → mqttConnect b s = s) ∧
    (∀ ps : List Publish, ps ≠ [] →
      (mqttPublishAll true mqttInit ps).connected = true ∧
      (mqttPublishAll true mqttInit ps).connectCalls = 1) := by
  constructor
  · intro b s h
    simp [mqttConnect, h]
  · intro ps hne
    cases ps with
    | nil => exact absurd rfl hne
    | cons p rest =>
      have hfirst : mqttPublish true mqttInit p =
          { connected := true, connectCalls := 1, published := [p] } := rfl
      simp only [mqttPublishAll, List.foldl_cons, hfirst]
      exact mqttPublishAll_connected true rest
        { connected := true, connectCalls := 1, published := [p] } rfl

theorem C8_connect_idempotent_witness :
    ((mqttPublishAll true mqttInit
      [⟨"t1", Payload.state "1", false⟩, ⟨"t2", Payload.state "2", false⟩]).connected = true ∧
     (mqttPublishAll true mqttInit
      [⟨"t1", Payload.state "1", false⟩, ⟨"t2", Payload.state "2", false⟩]).connectCalls = 1) ∧
    mqttConnect true { connected := true, connectCalls := 5, published := [] } =
      { connected := true, connectCalls := 5, published := [] } :=
  ⟨C8_connect_idempotent.2
      [⟨"t1", Payload.state "1", false⟩, ⟨"t2", Payload.state "2", false⟩] (by decide),
   C8_connect_idempotent.1 true
      { connected := true, connectCalls := 5, published := [] } rfl⟩

/-- C9: a None mqtt_prefix is coerced to the empty string by
XcelMeter.__init__ (and main passes None through when MQTT_TOPIC_PREFIX
is unset); reading XcelMeter.mqtt_topic_prefix on the empty string
raises IndexError from `prefix[-1]`, while every non-empty prefix
yields the prefix with one trailing "/" removed when present. -/
theorem C9_topic_root :
    meterInitRoot none = "" ∧
    mainMqttRootArg none = none ∧
    meterTopicRoot "" = Except.error PyErr.indexError ∧
    (∀ p : String, p ≠ "" →
      ∃ q, meterTopicRoot p = Except.ok q ∧
        ((lastIsSlash p = true ∧ q ++ "/" = p) ∨
         (lastIsSlash p = false ∧ q = p))) := by
  refine ⟨rfl, rfl, rfl, ?_⟩
  intro p hp
  cases hls : lastIsSlash p with
  | true =>
    refine ⟨dropLast1 p, ?_, Or.inl ⟨rfl, dropLast1_append_slash p hls⟩⟩
    simp [meterTopicRoot, hp, hls]
  | false =>
    refine ⟨p, ?_, Or.inr ⟨rfl, rfl⟩⟩
    simp [meterTopicRoot, hp, hls]

theorem C9_topic_root_witness :
    meterInitRoot none = "" ∧
    (∃ q, meterTopicRoot "homeassistant/" = Except.ok q ∧
      ((lastIsSlash "homeassistant/" = true ∧ q ++ "/" = "homeassistant/") ∨
       (lastIsSlash "homeassistant/" = false ∧ q = "homeassistant/"))) :=
  ⟨C9_topic_root.1, C9_topic_root.2.2.2 "homeassistant/" (by decide)⟩

/-- C10: XcelMeter.create_endpoints passes eight positional arguments to
XcelEndpoint.create_endpoint, which requires nine (meter_name is never
supplied), so for every non-empty schema — given a meter whose topic
prefix read does not itself raise — it raises TypeError, and
XcelMeter.setup fails (even after its 15 retry attempts) without ever
setting the initalized flag. -/
theorem C10_arity (baseUrl lfdi root : String) (device : DeviceInfo)
    (entries : List (String × EndpointSpec))
    (hne : entries ≠ []) (hroot : root ≠ "") :
    create_endpoints baseUrl lfdi root device entries =
      Except.error (PyErr.typeError "create_endpoint() missing required positional arguments") ∧
    setupTail baseUrl lfdi root device entries =
      Except.error (PyErr.typeError "create_endpoint() missing required positional arguments") ∧
    (tenacityRetry (fun _ => setupTail baseUrl lfdi root device entries)).1 =
      Except.error (PyErr.typeError "create_endpoint() missing required positional arguments") ∧
    (tenacityRetry (fun _ => setupTail baseUrl lfdi root device entries)).2.1 = 15 := by
  obtain ⟨r0, hr0⟩ : ∃ r0, meterTopicRoot root = Except.ok r0 := by
    unfold meterTopicRoot
    rw [if_neg hroot]
    cases lastIsSlash root
    · exact ⟨root, rfl⟩
    · exact ⟨dropLast1 root, rfl⟩
  have h1 : create_endpoints baseUrl lfdi root device entries =
      Except.error (PyErr.typeError "create_endpoint() missing required positional arguments") := by
    cases entries with
    | nil => exact absurd rfl hne
    | cons e rest =>
      have hcall : createEndpointCall baseUrl lfdi root device e =
          Except.error (PyErr.typeError "create_endpoint() missing required positional arguments") := by
        simp only [createEndpointCall, createEndpointArgs, hr0]
        simp [bindArgs, createEndpointParams]
      simp only [create_endpoints, gatherE, hcall]
  have h2 : setupTail baseUrl lfdi root device entries =
      Except.error (PyErr.typeError "create_endpoint() missing required positional arguments") := by
    simp only [setupTail, h1, Except.map]
  have h3 := retryAux_fail (fun _ => setupTail baseUrl lfdi root device entries) 14 1
    (fun i _ => ⟨PyErr.typeError "create_endpoint() missing required positional arguments", h2⟩)
  refine ⟨h1, h2, ?_, ?_⟩
  · rw [show tenacityRetry (fun _ => setupTail baseUrl lfdi root device entries) =
        retryAux (fun _ => setupTail baseUrl lfdi root device entries) 1 14 from rfl, h3]
    exact h2
  · rw [show tenacityRetry (fun _ => setupTail baseUrl lfdi root device entries) =
        retryAux (fun _ => setupTail baseUrl lfdi root device entries) 1 14 from rfl, h3]

theorem C10_arity_witness :
    create_endpoints "https://1.2.3.4:8081" "LFDI1" "homeassistant" scenDevice
        [("edp", ⟨"/upt", scenTags⟩)] =
      Except.error (PyErr.typeError "create_endpoint() missing required positional arguments") ∧
    setupTail "https://1.2.3.4:8081" "LFDI1" "homeassistant" scenDevice
        [("edp", ⟨"/upt", scenTags⟩)] =
      Except.error (PyErr.typeError "create_endpoint() missing required positional arguments") ∧
    (tenacityRetry (fun _ => setupTail "https://1.2.3.4:8081" "LFDI1" "homeassistant" scenDevice
        [("edp", ⟨"/upt", scenTags⟩)])).1 =
      Except.error (PyErr.typeError "create_endpoint() missing required positional arguments") ∧
    (tenacityRetry (fun _ => setupTail "https://1.2.3.4:8081" "LFDI1" "homeassistant" scenDevice
        [("edp", ⟨"/upt", scenTags⟩)])).2.1 = 15 :=
  C10_arity "https://1.2.3.4:8081" "LFDI1" "homeassistant" scenDevice
    [("edp", ⟨"/upt", scenTags⟩)] (by decide) (by decide)

end XcelItron
